import Mathlib

/-!
Shallow embedding of the DOM tree-mutation sink of this repository
(source: src/dom.rs).  The Rust code implements the html5ever
TreeSink trait for a `Dom` that stores nodes in a slotmap arena and
keeps an optional cached document handle.  Here handles are natural
numbers, the arena is an association list together with the next
fresh key, and diagnostics (the tracing calls) are collected in a
log.  Rust panics (the two "Not an element" branches, `todo` calls
and indexing with a stale key) become `Except` errors.
-/

set_option autoImplicit false

/-- Severity of a diagnostic message (tracing in the source). -/
inductive Severity where
  | error
  | warning
deriving DecidableEq, Repr

/-- A `DOCTYPE` with name, public id, and system id (struct `Doctype`). -/
structure Doctype where
  name : String
  public_id : String
  system_id : String
deriving DecidableEq, Repr

/-- A qualified name: namespace plus local name (html5ever `QualName`,
restricted to the fields this code reads). -/
structure QualName where
  ns : String
  localName : String
deriving DecidableEq, Repr

/-- An attribute: qualified name and text value (html5ever `Attribute`). -/
structure Attribute where
  name : QualName
  value : String
deriving DecidableEq, Repr

/-- Modelled from the spec: the opaque element value type
(`html_tags::ElementOwned`, an external crate absent from src/).  Per the
spec it supports construct-from-tag-name and set-attribute-by-name, where
a later write for a given name replaces the earlier one. -/
structure ElementOwned where
  tag : String
  attrs : List (String × String)
deriving DecidableEq, Repr

/-- Modelled from the spec: `ElementOwned::from_tag` builds the value
from a tag name with no attributes set. -/
def ElementOwned.from_tag (tag : String) : ElementOwned :=
  ⟨tag, []⟩

/-- Replace the binding for a name in an attribute association list, or
add it at the end when absent. -/
def setAttrList : List (String × String) → String → String → List (String × String)
  | [], n, v => [(n, v)]
  | (k, w) :: rest, n, v =>
    if k = n then (k, v) :: rest else (k, w) :: setAttrList rest n v

/-- Modelled from the spec: `ElementOwned::set_attr` sets an attribute by
name, unconditionally (last write wins). -/
def ElementOwned.set_attr (e : ElementOwned) (n v : String) : ElementOwned :=
  { e with attrs := setAttrList e.attrs n v }

/-- Look up a binding in an attribute association list. -/
def lookupAttr : List (String × String) → String → Option String
  | [], _ => none
  | (k, v) :: rest, n => if k = n then some v else lookupAttr rest n

/-- Look up an attribute value by name. -/
def ElementOwned.get_attr (e : ElementOwned) (n : String) : Option String :=
  lookupAttr e.attrs n

/-- The different kinds of nodes in the DOM (enum `Node`). -/
inductive Node where
  | document (doctype : Option Doctype)
  | text (contents : String)
  | comment (contents : String)
  | element (elem : ElementOwned) (qualified_name : QualName)
      (parent : Nat) (children : List Nat)
  | processingInstruction (target : String) (contents : String)
deriving DecidableEq, Repr

/-- Whether a node is the `element` variant. -/
def Node.isElem : Node → Bool
  | .element _ _ _ _ => true
  | _ => false

/-- The node arena (slotmap `HopSlotMap<NodeHandle, Node>`): an
association list of handle/node entries plus the next fresh handle. -/
structure Arena where
  next : Nat
  entries : List (Nat × Node)
deriving DecidableEq, Repr

/-- Look up the node stored under a handle. -/
def lookupEntry : List (Nat × Node) → Nat → Option Node
  | [], _ => none
  | (k, n) :: rest, h => if k = h then some n else lookupEntry rest h

/-- Replace the first entry under a handle (mutation through `get_mut` /
`IndexMut` in the source); a no-op when the handle is absent. -/
def setEntry : List (Nat × Node) → Nat → Node → List (Nat × Node)
  | [], _, _ => []
  | (k, m) :: rest, h, n =>
    if k = h then (k, n) :: rest else (k, m) :: setEntry rest h n

/-- Arena lookup (`self.map[h]` read). -/
def Arena.get (a : Arena) (h : Nat) : Option Node :=
  lookupEntry a.entries h

/-- Arena in-place update (`self.map[h] = n` or mutation through `&mut`). -/
def Arena.set (a : Arena) (h : Nat) (n : Node) : Arena :=
  ⟨a.next, setEntry a.entries h n⟩

/-- Arena insertion (`self.map.insert(node)`): returns a fresh handle,
never moves live entries. -/
def Arena.insert (a : Arena) (n : Node) : Nat × Arena :=
  (a.next, ⟨a.next + 1, (a.next, n) :: a.entries⟩)

/-- All keys in the arena are below the next fresh handle. -/
def Arena.wf (a : Arena) : Prop :=
  ∀ p ∈ a.entries, p.1 < a.next

instance (a : Arena) : Decidable a.wf := by
  unfold Arena.wf
  infer_instance

/-- The sink state (struct `Dom`): the arena, the cached document handle,
and the diagnostics emitted so far (tracing calls in the source; newest
first). -/
structure Dom where
  map : Arena
  document : Option Nat
  log : List (Severity × String)
deriving DecidableEq, Repr

/-- The `Default` instance of `Dom`. -/
def Dom.init : Dom :=
  ⟨⟨0, []⟩, none, []⟩

/-- Outcomes of Rust panics in the sink: the "Not an element" branches,
indexing the slotmap with an unknown key, and the `todo` stubs. -/
inductive DomError where
  | notAnElement
  | invalidHandle
  | unimplemented
deriving DecidableEq, Repr

/-- Argument of the append operations (html5ever `NodeOrText`). -/
inductive NodeOrText where
  | appendNode (handle : Nat)
  | appendText (contents : String)
deriving DecidableEq, Repr

/-- Quirks mode flag (html5ever `QuirksMode`). -/
inductive QuirksMode where
  | quirks
  | limitedQuirks
  | noQuirks
deriving DecidableEq, Repr

/-- `TreeSink::finish`. -/
def Dom.finish (s : Dom) : Dom := s

/-- `TreeSink::parse_error`: error-severity diagnostic only. -/
def Dom.parse_error (s : Dom) (msg : String) : Dom :=
  { s with log := (Severity.error, "parse error: " ++ msg) :: s.log }

/-- `TreeSink::get_document`: return the cached document handle, creating
the Document node (doctype none) on first call. -/
def Dom.get_document (s : Dom) : Nat × Dom :=
  match s.document with
  | some doc => (doc, s)
  | none =>
    let r := s.map.insert (Node.document none)
    (r.1, { s with map := r.2, document := some r.1 })

/-- `TreeSink::elem_name`: qualified name of an element. -/
def Dom.elem_name (s : Dom) (target : Nat) : Except DomError QualName :=
  match s.map.get target with
  | some (.element _ qn _ _) => .ok qn
  | some _ => .error .notAnElement
  | none => .error .invalidHandle

/-- Apply a list of attributes in order through `set_attr` (the for-loops
of `create_element` and `add_attrs_if_missing`). -/
def applyAttrs (e : ElementOwned) : List Attribute → ElementOwned
  | [] => e
  | a :: rest => applyAttrs (e.set_attr a.name.localName a.value) rest

/-- `TreeSink::create_element`: build the element value from the tag and
the attributes, take the current document handle as parent, insert an
Element node with no children, return its handle. -/
def Dom.create_element (s : Dom) (name : QualName) (attrs : List Attribute) :
    Nat × Dom :=
  let elem := applyAttrs (ElementOwned.from_tag name.localName) attrs
  let r := s.get_document
  let r2 := r.2.map.insert (Node.element elem name r.1 [])
  (r2.1, { r.2 with map := r2.2 })

/-- `TreeSink::create_comment`. -/
def Dom.create_comment (s : Dom) (contents : String) : Nat × Dom :=
  let r := s.map.insert (Node.comment contents)
  (r.1, { s with map := r.2 })

/-- `TreeSink::create_pi`. -/
def Dom.create_pi (s : Dom) (target contents : String) : Nat × Dom :=
  let r := s.map.insert (Node.processingInstruction target contents)
  (r.1, { s with map := r.2 })

/-- `TreeSink::append`.  Attach case: the node passed as child is looked
up, and the handle passed as parent is pushed onto THAT node's child
list (this is what the source does).  Text case: a Text node is inserted
and its handle pushed onto the parent's child list. -/
def Dom.append (s : Dom) (parent : Nat) (child : NodeOrText) :
    Except DomError Dom :=
  match child with
  | .appendNode node =>
    match s.map.get node with
    | some (.element elem qn par children) =>
      .ok { s with map := s.map.set node (.element elem qn par (children ++ [parent])) }
    | some _ => .error .notAnElement
    | none => .error .invalidHandle
  | .appendText contents =>
    let r := s.map.insert (Node.text contents)
    match r.2.get parent with
    | some (.element elem qn par children) =>
      .ok { s with map := r.2.set parent (.element elem qn par (children ++ [r.1])) }
    | some _ => .error .notAnElement
    | none => .error .invalidHandle

/-- `TreeSink::append_based_on_parent_node`: warning diagnostic, then
plain append. -/
def Dom.append_based_on_parent_node (s : Dom) (element _prev : Nat)
    (child : NodeOrText) : Except DomError Dom :=
  Dom.append
    { s with log := (Severity.warning,
        "partially implemented - append based on parent node") :: s.log }
    element child

/-- `TreeSink::append_doctype_to_document`: overwrite the Document node
with one holding the given doctype. -/
def Dom.append_doctype_to_document (s : Dom)
    (name public_id system_id : String) : Dom :=
  let r := s.get_document
  { r.2 with map := r.2.map.set r.1 (Node.document (some ⟨name, public_id, system_id⟩)) }

/-- `TreeSink::get_template_contents`: an unimplemented stub that aborts
(error diagnostic, then `todo`). -/
def Dom.get_template_contents (_s : Dom) (_target : Nat) :
    Except DomError (Nat × Dom) :=
  .error .unimplemented

/-- `TreeSink::same_node`: pure handle equality. -/
def Dom.same_node (_s : Dom) (x y : Nat) : Bool :=
  x == y

/-- `TreeSink::set_quirks_mode`: warning diagnostic only. -/
def Dom.set_quirks_mode (s : Dom) (_mode : QuirksMode) : Dom :=
  { s with log := (Severity.warning, "not implemented - quirks mode") :: s.log }

/-- `TreeSink::append_before_sibling`: warning diagnostic, no mutation,
returns normally. -/
def Dom.append_before_sibling (s : Dom) (_sibling : Nat)
    (_new_node : NodeOrText) : Except DomError Dom :=
  .ok { s with log := (Severity.warning,
      "not implemented - append before sibling") :: s.log }

/-- `TreeSink::add_attrs_if_missing`: despite its name the source sets
every attribute through `set_attr`, unconditionally. -/
def Dom.add_attrs_if_missing (s : Dom) (target : Nat)
    (attrs : List Attribute) : Except DomError Dom :=
  match s.map.get target with
  | some (.element elem qn par children) =>
    .ok { s with map := s.map.set target (.element (applyAttrs elem attrs) qn par children) }
  | some _ => .error .notAnElement
  | none => .error .invalidHandle

/-- `TreeSink::remove_from_parent`: read the target's recorded parent,
then drop the target from that parent's child list (`retain`). -/
def Dom.remove_from_parent (s : Dom) (target : Nat) : Except DomError Dom :=
  match s.map.get target with
  | some (.element _ _ parent _) =>
    match s.map.get parent with
    | some (.element pe pqn pp pch) =>
      let m := s.map.set parent (.element pe pqn pp (pch.filter (fun x => x != target)))
      .ok { s with map := m }
    | some _ => .error .notAnElement
    | none => .error .invalidHandle
  | some _ => .error .notAnElement
  | none => .error .invalidHandle

/-- `TreeSink::reparent_children`: an unimplemented stub that aborts. -/
def Dom.reparent_children (_s : Dom) (_node _new_parent : Nat) :
    Except DomError Dom :=
  .error .unimplemented

/-! Arena lemmas. -/

theorem lookup_setEntry (l : List (Nat × Node)) (h k : Nat) (n : Node) :
    lookupEntry (setEntry l h n) k =
      if k = h then (lookupEntry l k).map (fun _ => n) else lookupEntry l k := by
  induction l with
  | nil => simp [setEntry, lookupEntry]
  | cons p rest ih =>
    obtain ⟨a, m⟩ := p
    simp only [setEntry, lookupEntry]
    by_cases hah : a = h
    · subst hah
      by_cases hak : a = k
      · subst hak
        simp [lookupEntry]
      · simp [lookupEntry, hak, Ne.symm hak]
    · by_cases hak : a = k
      · subst hak
        have hkh : ¬(a = h) := hah
        simp [lookupEntry, hah, hkh]
      · simp [lookupEntry, hah, hak, ih]

theorem Arena.get_set (a : Arena) (h k : Nat) (n : Node) :
    (a.set h n).get k = if k = h then (a.get k).map (fun _ => n) else a.get k :=
  lookup_setEntry a.entries h k n

theorem Arena.get_insert (a : Arena) (n : Node) (k : Nat) :
    (a.insert n).2.get k = if a.next = k then some n else a.get k := by
  simp [Arena.insert, Arena.get, lookupEntry]

theorem Arena.next_set (a : Arena) (h : Nat) (n : Node) :
    (a.set h n).next = a.next := rfl

theorem Arena.isSome_get_set (a : Arena) (h k : Nat) (n : Node)
    (hs : (a.get k).isSome) : ((a.set h n).get k).isSome := by
  rw [Arena.get_set]
  by_cases hk : k = h
  · subst hk
    simpa using hs
  · simpa [hk] using hs

theorem Arena.isSome_get_insert (a : Arena) (n : Node) (k : Nat)
    (hs : (a.get k).isSome) : ((a.insert n).2.get k).isSome := by
  rw [Arena.get_insert]
  by_cases hk : a.next = k <;> simp [hk, hs]

theorem keys_setEntry (l : List (Nat × Node)) (h : Nat) (n : Node) :
    (setEntry l h n).map Prod.fst = l.map Prod.fst := by
  induction l with
  | nil => rfl
  | cons p rest ih =>
    obtain ⟨a, m⟩ := p
    by_cases hah : a = h <;> simp [setEntry, hah, ih]

theorem Arena.wf_set (a : Arena) (h : Nat) (n : Node) (hw : a.wf) :
    (a.set h n).wf := by
  intro p hp
  have h1 : p.1 ∈ (setEntry a.entries h n).map Prod.fst :=
    List.mem_map_of_mem Prod.fst hp
  rw [keys_setEntry] at h1
  obtain ⟨q, hq, hq1⟩ := List.mem_map.mp h1
  show p.1 < a.next
  exact hq1 ▸ hw q hq

theorem Arena.wf_insert (a : Arena) (n : Node) (hw : a.wf) :
    (a.insert n).2.wf := by
  intro p hp
  show p.1 < a.next + 1
  rcases List.mem_cons.mp hp with hp | hp
  · subst hp
    simp
  · exact Nat.lt_succ_of_lt (hw p hp)

theorem lookupEntry_eq_none (l : List (Nat × Node)) (h : Nat)
    (hl : ∀ p ∈ l, p.1 ≠ h) : lookupEntry l h = none := by
  induction l with
  | nil => rfl
  | cons p rest ih =>
    obtain ⟨k, m⟩ := p
    have hk : k ≠ h := hl (k, m) (by simp)
    simp only [lookupEntry, hk, if_false]
    exact ih (fun q hq => hl q (by simp [hq]))

theorem Arena.get_next_of_wf (a : Arena) (hw : a.wf) :
    a.get a.next = none :=
  lookupEntry_eq_none a.entries a.next (fun p hp => Nat.ne_of_lt (hw p hp))

/-! Lemmas on the sink operations. -/

theorem Dom.get_document_cached (s : Dom) (d : Nat) (hd : s.document = some d) :
    s.get_document = (d, s) := by
  simp [Dom.get_document, hd]

theorem Dom.get_document_fresh (s : Dom) (hd : s.document = none) :
    s.get_document =
      (s.map.next, ⟨(s.map.insert (Node.document none)).2, some s.map.next, s.log⟩) := by
  simp [Dom.get_document, hd, Arena.insert]

/-- Call `get_document` a number of times in sequence, collecting the
returned handles. -/
def getDocN : Nat → Dom → List Nat × Dom
  | 0, s => ([], s)
  | n + 1, s =>
    let r := s.get_document
    let r2 := getDocN n r.2
    (r.1 :: r2.1, r2.2)

theorem getDocN_cached (n : Nat) (s : Dom) (d : Nat) (hd : s.document = some d) :
    getDocN n s = (List.replicate n d, s) := by
  induction n with
  | zero => simp [getDocN]
  | succ n ih => simp [getDocN, Dom.get_document_cached s d hd, ih, List.replicate]

theorem lookupAttr_setAttrList (l : List (String × String)) (k n v : String) :
    lookupAttr (setAttrList l k v) n = if k = n then some v else lookupAttr l n := by
  induction l with
  | nil => simp [setAttrList, lookupAttr]
  | cons p rest ih =>
    obtain ⟨a, w⟩ := p
    by_cases hak : a = k
    · subst hak
      by_cases han : a = n <;> simp [setAttrList, lookupAttr, han]
    · by_cases han : a = n
      · subst han
        simp [setAttrList, lookupAttr, hak, Ne.symm hak]
      · simp [setAttrList, lookupAttr, hak, han, ih]

theorem get_attr_set_attr (e : ElementOwned) (k v n : String) :
    (e.set_attr k v).get_attr n = if k = n then some v else e.get_attr n := by
  simp [ElementOwned.get_attr, ElementOwned.set_attr, lookupAttr_setAttrList]

/-- The value the last write for a name in an attribute list leaves
behind, when there is one. -/
def lastValue (n : String) : List Attribute → Option String
  | [] => none
  | a :: rest =>
    match lastValue n rest with
    | some v => some v
    | none => if a.name.localName = n then some a.value else none

theorem get_attr_applyAttrs (e : ElementOwned) (attrs : List Attribute) (n : String) :
    (applyAttrs e attrs).get_attr n =
      match lastValue n attrs with
      | some v => some v
      | none => e.get_attr n := by
  induction attrs generalizing e with
  | nil => simp [applyAttrs, lastValue]
  | cons a rest ih =>
    simp only [applyAttrs, lastValue]
    rw [ih]
    cases hlv : lastValue n rest with
    | some v => simp
    | none =>
      simp only []
      by_cases han : a.name.localName = n <;>
        simp [han, get_attr_set_attr]

/-! The protocol: one step per TreeSink call, and sequences of calls. -/

/-- One TreeSink call, with its arguments. -/
inductive SinkOp where
  | get_document
  | create_element (name : QualName) (attrs : List Attribute)
  | create_comment (contents : String)
  | create_pi (target contents : String)
  | append (parent : Nat) (child : NodeOrText)
  | append_based_on_parent_node (element prev : Nat) (child : NodeOrText)
  | append_doctype_to_document (name public_id system_id : String)
  | add_attrs_if_missing (target : Nat) (attrs : List Attribute)
  | remove_from_parent (target : Nat)
  | append_before_sibling (sibling : Nat) (new_node : NodeOrText)
  | get_template_contents (target : Nat)
  | reparent_children (node new_parent : Nat)
  | set_quirks_mode (mode : QuirksMode)
  | parse_error (msg : String)
deriving DecidableEq, Repr

/-- State reached after one TreeSink call (a failing call aborts the
parse, leaving the state it was given). -/
def runOp (op : SinkOp) (s : Dom) : Dom :=
  match op with
  | .get_document => s.get_document.2
  | .create_element name attrs => (s.create_element name attrs).2
  | .create_comment c => (s.create_comment c).2
  | .create_pi t c => (s.create_pi t c).2
  | .append p c =>
    match s.append p c with
    | .ok s2 => s2
    | .error _ => s
  | .append_based_on_parent_node e p c =>
    match s.append_based_on_parent_node e p c with
    | .ok s2 => s2
    | .error _ => s
  | .append_doctype_to_document n p y => s.append_doctype_to_document n p y
  | .add_attrs_if_missing t attrs =>
    match s.add_attrs_if_missing t attrs with
    | .ok s2 => s2
    | .error _ => s
  | .remove_from_parent t =>
    match s.remove_from_parent t with
    | .ok s2 => s2
    | .error _ => s
  | .append_before_sibling sib n =>
    match s.append_before_sibling sib n with
    | .ok s2 => s2
    | .error _ => s
  | .get_template_contents t =>
    match s.get_template_contents t with
    | .ok r => r.2
    | .error _ => s
  | .reparent_children n np =>
    match s.reparent_children n np with
    | .ok s2 => s2
    | .error _ => s
  | .set_quirks_mode m => s.set_quirks_mode m
  | .parse_error m => s.parse_error m

/-- State reached after a sequence of TreeSink calls. -/
def run : List SinkOp → Dom → Dom
  | [], s => s
  | op :: rest, s => run rest (runOp op s)

/-- One arena grows into another when every resolvable handle stays
resolvable and well-formedness is preserved. -/
def Arena.grows (a b : Arena) : Prop :=
  (∀ h, (a.get h).isSome → (b.get h).isSome) ∧ (a.wf → b.wf)

theorem Arena.grows_refl (a : Arena) : a.grows a :=
  ⟨fun _ hs => hs, fun hw => hw⟩

theorem Arena.grows_set (a : Arena) (h : Nat) (n : Node) : a.grows (a.set h n) :=
  ⟨fun k hs => Arena.isSome_get_set a h k n hs, fun hw => Arena.wf_set a h n hw⟩

theorem Arena.grows_insert (a : Arena) (n : Node) : a.grows (a.insert n).2 :=
  ⟨fun k hs => Arena.isSome_get_insert a n k hs, fun hw => Arena.wf_insert a n hw⟩

theorem Arena.grows_trans (a b c : Arena) (hab : a.grows b) (hbc : b.grows c) :
    a.grows c :=
  ⟨fun k hs => hbc.1 k (hab.1 k hs), fun hw => hbc.2 (hab.2 hw)⟩

theorem grows_get_document (s : Dom) : s.map.grows (s.get_document.2).map := by
  cases hd : s.document with
  | some d =>
    rw [Dom.get_document_cached s d hd]
    exact Arena.grows_refl _
  | none =>
    rw [Dom.get_document_fresh s hd]
    exact Arena.grows_insert _ _

theorem grows_append (s : Dom) (p : Nat) (c : NodeOrText) (s2 : Dom)
    (hr : s.append p c = .ok s2) : s.map.grows s2.map := by
  unfold Dom.append at hr
  cases c with
  | appendNode node =>
    simp only [] at hr
    cases hn : s.map.get node with
    | none => rw [hn] at hr; cases hr
    | some nd =>
      rw [hn] at hr
      cases nd with
      | element e qn par ch =>
        simp only [] at hr
        cases hr
        exact Arena.grows_set _ _ _
      | document d => cases hr
      | text t => cases hr
      | comment t => cases hr
      | processingInstruction t u => cases hr
  | appendText contents =>
    simp only [] at hr
    cases hn : (s.map.insert (Node.text contents)).2.get p with
    | none => rw [hn] at hr; cases hr
    | some nd =>
      rw [hn] at hr
      cases nd with
      | element e qn par ch =>
        simp only [] at hr
        cases hr
        exact Arena.grows_trans _ _ _ (Arena.grows_insert _ _) (Arena.grows_set _ _ _)
      | document d => cases hr
      | text t => cases hr
      | comment t => cases hr
      | processingInstruction t u => cases hr

theorem grows_add_attrs (s : Dom) (t : Nat) (attrs : List Attribute) (s2 : Dom)
    (hr : s.add_attrs_if_missing t attrs = .ok s2) : s.map.grows s2.map := by
  unfold Dom.add_attrs_if_missing at hr
  cases hn : s.map.get t with
  | none => rw [hn] at hr; cases hr
  | some nd =>
    rw [hn] at hr
    cases nd with
    | element e qn par ch =>
      simp only [] at hr
      cases hr
      exact Arena.grows_set _ _ _
    | document d => cases hr
    | text u => cases hr
    | comment u => cases hr
    | processingInstruction u v => cases hr

theorem grows_remove_from_parent (s : Dom) (t : Nat) (s2 : Dom)
    (hr : s.remove_from_parent t = .ok s2) : s.map.grows s2.map := by
  unfold Dom.remove_from_parent at hr
  cases hn : s.map.get t with
  | none => rw [hn] at hr; cases hr
  | some nd =>
    rw [hn] at hr
    cases nd with
    | element e qn par ch =>
      simp only [] at hr
      cases hp : s.map.get par with
      | none => rw [hp] at hr; cases hr
      | some pd =>
        rw [hp] at hr
        cases pd with
        | element pe pqn pp pch =>
          simp only [] at hr
          cases hr
          exact Arena.grows_set _ _ _
        | document d => cases hr
        | text u => cases hr
        | comment u => cases hr
        | processingInstruction u v => cases hr
    | document d => cases hr
    | text u => cases hr
    | comment u => cases hr
    | processingInstruction u v => cases hr

theorem grows_runOp (op : SinkOp) (s : Dom) : s.map.grows (runOp op s).map := by
  cases op with
  | get_document => exact grows_get_document s
  | create_element name attrs =>
    simp only [runOp, Dom.create_element]
    exact Arena.grows_trans _ _ _ (grows_get_document s) (Arena.grows_insert _ _)
  | create_comment c =>
    simp only [runOp, Dom.create_comment]
    exact Arena.grows_insert _ _
  | create_pi t c =>
    simp only [runOp, Dom.create_pi]
    exact Arena.grows_insert _ _
  | append p c =>
    simp only [runOp]
    cases hr : s.append p c with
    | ok s2 => exact grows_append s p c s2 hr
    | error e => exact Arena.grows_refl _
  | append_based_on_parent_node e p c =>
    simp only [runOp]
    cases hr : s.append_based_on_parent_node e p c with
    | ok s2 =>
      unfold Dom.append_based_on_parent_node at hr
      have h2 := grows_append _ e c s2 hr
      exact h2
    | error e2 => exact Arena.grows_refl _
  | append_doctype_to_document n p y =>
    simp only [runOp, Dom.append_doctype_to_document]
    exact Arena.grows_trans _ _ _ (grows_get_document s) (Arena.grows_set _ _ _)
  | add_attrs_if_missing t attrs =>
    simp only [runOp]
    cases hr : s.add_attrs_if_missing t attrs with
    | ok s2 => exact grows_add_attrs s t attrs s2 hr
    | error e => exact Arena.grows_refl _
  | remove_from_parent t =>
    simp only [runOp]
    cases hr : s.remove_from_parent t with
    | ok s2 => exact grows_remove_from_parent s t s2 hr
    | error e => exact Arena.grows_refl _
  | append_before_sibling sib n =>
    simp only [runOp, Dom.append_before_sibling]
    exact Arena.grows_refl _
  | get_template_contents t =>
    simp only [runOp, Dom.get_template_contents]
    exact Arena.grows_refl _
  | reparent_children n np =>
    simp only [runOp, Dom.reparent_children]
    exact Arena.grows_refl _
  | set_quirks_mode m =>
    simp only [runOp, Dom.set_quirks_mode]
    exact Arena.grows_refl _
  | parse_error m =>
    simp only [runOp, Dom.parse_error]
    exact Arena.grows_refl _

theorem grows_run (ops : List SinkOp) (s : Dom) : s.map.grows (run ops s).map := by
  induction ops generalizing s with
  | nil => exact Arena.grows_refl _
  | cons op rest ih =>
    exact Arena.grows_trans _ _ _ (grows_runOp op s) (ih (runOp op s))

theorem Arena.get_set_self (a : Arena) (h : Nat) (n : Node)
    (hs : (a.get h).isSome) : (a.set h n).get h = some n := by
  rw [Arena.get_set]
  simp only [if_pos rfl]
  cases hg : a.get h with
  | none => rw [hg] at hs; cases hs
  | some m => simp

/-- Claim C5: for every N at least 1, calling get_document N times on a
sink whose document is not yet created returns the same fresh handle
every time, and inserts exactly one Document node (doctype none) into
the arena, caching its handle; later calls create nothing. -/
theorem get_document_idempotent (s : Dom) (n : Nat) (hd : s.document = none)
    (hn : 1 ≤ n) :
    (getDocN n s).1 = List.replicate n s.map.next ∧
    (getDocN n s).2 =
      ⟨⟨s.map.next + 1, (s.map.next, Node.document none) :: s.map.entries⟩,
        some s.map.next, s.log⟩ := by
  obtain ⟨m, rfl⟩ : ∃ m, n = m + 1 := ⟨n - 1, by omega⟩
  have h1 := Dom.get_document_fresh s hd
  simp only [getDocN, h1]
  rw [getDocN_cached m _ s.map.next rfl]
  simp [List.replicate, Arena.insert]

/-- Witness for C5: three calls on the default sink return handle 0
three times and create one Document node. -/
theorem get_document_idempotent_witness :
    (getDocN 3 Dom.init).1 = List.replicate 3 0 ∧
    (getDocN 3 Dom.init).2 = ⟨⟨1, [(0, Node.document none)]⟩, some 0, []⟩ :=
  get_document_idempotent Dom.init 3 rfl (by decide)

/-- Claim C7: create_element returns the fresh handle of an inserted
Element node whose parent field is the current document handle and whose
child list is empty; its recorded attributes are the attribute list
applied in order with the last write for a name winning, and in
particular class a then class b records class b. -/
theorem create_element_spec (s : Dom) (name : QualName) (attrs : List Attribute) :
    (s.create_element name attrs).1 = (s.get_document.2).map.next ∧
    ((s.create_element name attrs).2).map.get ((s.create_element name attrs).1) =
      some (Node.element (applyAttrs (ElementOwned.from_tag name.localName) attrs)
        name (s.get_document.1) []) ∧
    (∀ (e : ElementOwned) (l : List Attribute) (a : String),
      (applyAttrs e l).get_attr a =
        match lastValue a l with
        | some v => some v
        | none => e.get_attr a) ∧
    (applyAttrs (ElementOwned.from_tag "div")
      [⟨⟨"", "class"⟩, "a"⟩, ⟨⟨"", "class"⟩, "b"⟩]).get_attr "class" = some "b" := by
  refine ⟨rfl, ?_, ?_, ?_⟩
  · show ((s.get_document.2).map.insert
      (Node.element (applyAttrs (ElementOwned.from_tag name.localName) attrs)
        name (s.get_document.1) [])).2.get ((s.get_document.2).map.next) = _
    rw [Arena.get_insert]
    simp
  · intro e l a
    exact get_attr_applyAttrs e l a
  · decide

/-- Claim C8: append_doctype_to_document records exactly the three given
strings on the Document node; a second call fully replaces them; the
document handle is unchanged by both calls. -/
theorem append_doctype_map (s : Dom) (n p y : String) :
    (s.append_doctype_to_document n p y).map
      = (s.get_document.2).map.set (s.get_document.1)
          (Node.document (some ⟨n, p, y⟩)) := rfl

theorem append_doctype_document (s : Dom) (n p y : String) :
    (s.append_doctype_to_document n p y).document
      = (s.get_document.2).document := rfl

theorem append_doctype_last_write_wins (s : Dom) (n p y n2 p2 y2 : String)
    (hd : ∀ d, s.document = some d → (s.map.get d).isSome) :
    ((s.append_doctype_to_document n p y).map.get (s.get_document.1)
      = some (Node.document (some ⟨n, p, y⟩))) ∧
    (s.append_doctype_to_document n p y).document = some (s.get_document.1) ∧
    (((s.append_doctype_to_document n p y).append_doctype_to_document n2 p2 y2).map.get
      (s.get_document.1) = some (Node.document (some ⟨n2, p2, y2⟩))) ∧
    ((s.append_doctype_to_document n p y).append_doctype_to_document n2 p2 y2).document
      = some (s.get_document.1) := by
  cases hdoc : s.document with
  | some d =>
    have hds : (s.map.get d).isSome := hd d hdoc
    have h1 := Dom.get_document_cached s d hdoc
    have hdoc1 : (s.append_doctype_to_document n p y).document = some d := by
      rw [append_doctype_document, h1]
      exact hdoc
    have hget1 : (s.append_doctype_to_document n p y).map.get d
        = some (Node.document (some ⟨n, p, y⟩)) := by
      rw [append_doctype_map, h1]
      exact Arena.get_set_self s.map d _ hds
    have h2 := Dom.get_document_cached (s.append_doctype_to_document n p y) d hdoc1
    have hdoc2 : ((s.append_doctype_to_document n p y).append_doctype_to_document n2 p2 y2).document
        = some d := by
      rw [append_doctype_document, h2]
      exact hdoc1
    rw [h1]
    refine ⟨hget1, hdoc1, ?_, hdoc2⟩
    rw [append_doctype_map, h2]
    exact Arena.get_set_self _ d _ (by rw [hget1]; rfl)
  | none =>
    have h1 := Dom.get_document_fresh s hdoc
    have hget0 : (s.get_document.2).map.get s.map.next = some (Node.document none) := by
      rw [h1]
      simp [Arena.insert, Arena.get, lookupEntry]
    have hdoc1 : (s.append_doctype_to_document n p y).document = some s.map.next := by
      rw [append_doctype_document, h1]
    have hget1 : (s.append_doctype_to_document n p y).map.get s.map.next
        = some (Node.document (some ⟨n, p, y⟩)) := by
      rw [append_doctype_map, h1]
      refine Arena.get_set_self _ _ _ ?_
      have hg := hget0
      rw [h1] at hg
      rw [hg]
      rfl
    have h2 := Dom.get_document_cached (s.append_doctype_to_document n p y) s.map.next hdoc1
    have hdoc2 : ((s.append_doctype_to_document n p y).append_doctype_to_document n2 p2 y2).document
        = some s.map.next := by
      rw [append_doctype_document, h2]
      exact hdoc1
    rw [h1]
    refine ⟨hget1, hdoc1, ?_, hdoc2⟩
    rw [append_doctype_map, h2]
    exact Arena.get_set_self _ _ _ (by rw [hget1]; rfl)

/-- Witness for C8 on the default sink with two distinct doctype
triples. -/
theorem append_doctype_last_write_wins_witness :
    ((Dom.init.append_doctype_to_document "html" "" "").map.get (Dom.init.get_document.1)
      = some (Node.document (some ⟨"html", "", ""⟩))) ∧
    (Dom.init.append_doctype_to_document "html" "" "").document
      = some (Dom.init.get_document.1) ∧
    (((Dom.init.append_doctype_to_document "html" "" "").append_doctype_to_document "x" "y" "z").map.get
      (Dom.init.get_document.1) = some (Node.document (some ⟨"x", "y", "z"⟩))) ∧
    ((Dom.init.append_doctype_to_document "html" "" "").append_doctype_to_document "x" "y" "z").document
      = some (Dom.init.get_document.1) :=
  append_doctype_last_write_wins Dom.init "html" "" "" "x" "y" "z"
    (fun _ h => Option.noConfusion h)

/-! Concrete fixtures used by the witnesses below. -/

def qnDiv : QualName := ⟨"", "div"⟩

def eDiv : ElementOwned := ⟨"div", []⟩

/-- A document (handle 0), an element under it (handle 1) and a second
element (handle 2) recorded as child of handle 1. -/
def sTree : Dom :=
  ⟨⟨3, [(2, Node.element eDiv qnDiv 1 []), (1, Node.element eDiv qnDiv 0 [2]),
    (0, Node.document none)]⟩, some 0, []⟩

/-- Claim C6: remove_from_parent drops the target from its recorded
parent's child list by handle identity, so the former parent's child
list no longer contains the target; the target itself stays resolvable;
and the operation fails with the not-an-element condition if the target
or its recorded parent resolves to a non-Element node. -/
theorem remove_from_parent_spec (s : Dom) (t : Nat) :
    (∀ nd, s.map.get t = some nd → nd.isElem = false →
      s.remove_from_parent t = .error .notAnElement) ∧
    (∀ e qn p ch nd, s.map.get t = some (Node.element e qn p ch) →
      s.map.get p = some nd → nd.isElem = false →
      s.remove_from_parent t = .error .notAnElement) ∧
    (∀ e qn p ch pe pqn pp pch,
      s.map.get t = some (Node.element e qn p ch) →
      s.map.get p = some (Node.element pe pqn pp pch) →
      s.remove_from_parent t =
        .ok ⟨s.map.set p (Node.element pe pqn pp (pch.filter (fun x => x != t))),
          s.document, s.log⟩ ∧
      t ∉ pch.filter (fun x => x != t) ∧
      ((s.map.set p (Node.element pe pqn pp (pch.filter (fun x => x != t)))).get t).isSome) := by
  refine ⟨?_, ?_, ?_⟩
  · intro nd ht hne
    unfold Dom.remove_from_parent
    rw [ht]
    cases nd with
    | element e qn p ch => cases hne
    | document d => rfl
    | text c => rfl
    | comment c => rfl
    | processingInstruction a b => rfl
  · intro e qn p ch nd ht hp hne
    unfold Dom.remove_from_parent
    rw [ht]
    simp only []
    rw [hp]
    cases nd with
    | element pe pqn pp pch => cases hne
    | document d => rfl
    | text c => rfl
    | comment c => rfl
    | processingInstruction a b => rfl
  · intro e qn p ch pe pqn pp pch ht hp
    refine ⟨?_, ?_, ?_⟩
    · unfold Dom.remove_from_parent
      rw [ht]
      simp only []
      rw [hp]
    · simp
    · refine Arena.isSome_get_set s.map p t _ ?_
      rw [ht]
      rfl

/-- Witness for C6 on the concrete fixture: removing handle 2 from its
parent handle 1. -/
theorem remove_from_parent_spec_witness :
    sTree.remove_from_parent 2 =
      .ok ⟨sTree.map.set 1 (Node.element eDiv qnDiv 0 ([2].filter (fun x => x != 2))),
        sTree.document, sTree.log⟩ ∧
    2 ∉ [2].filter (fun x => x != (2 : Nat)) ∧
    ((sTree.map.set 1 (Node.element eDiv qnDiv 0 ([2].filter (fun x => x != 2)))).get 2).isSome :=
  (remove_from_parent_spec sTree 2).2.2 eDiv qnDiv 1 [] eDiv qnDiv 0 [2] rfl rfl

/-- Claim C10: when the target and its recorded parent are both Element
nodes, remove_from_parent modifies only the parent's entry: every other
handle resolves to the same node afterwards, the target still records
the old parent in its parent field, and the arena counter, cached
document handle and log are untouched. -/
theorem remove_from_parent_frame (s : Dom) (t : Nat)
    (e : ElementOwned) (qn : QualName) (p : Nat) (ch : List Nat)
    (pe : ElementOwned) (pqn : QualName) (pp : Nat) (pch : List Nat)
    (ht : s.map.get t = some (Node.element e qn p ch))
    (hp : s.map.get p = some (Node.element pe pqn pp pch)) :
    ∃ s2, s.remove_from_parent t = .ok s2 ∧
      (∀ h, h ≠ p → s2.map.get h = s.map.get h) ∧
      (∃ e2 ch2, s2.map.get t = some (Node.element e2 qn p ch2)) ∧
      s2.map.next = s.map.next ∧ s2.document = s.document ∧ s2.log = s.log := by
  have hok : s.remove_from_parent t =
      .ok ⟨s.map.set p (Node.element pe pqn pp (pch.filter (fun x => x != t))),
        s.document, s.log⟩ := by
    unfold Dom.remove_from_parent
    rw [ht]
    simp only []
    rw [hp]
  refine ⟨_, hok, ?_, ?_, rfl, rfl, rfl⟩
  · intro h hhp
    show (s.map.set p _).get h = s.map.get h
    rw [Arena.get_set]
    simp [hhp]
  · by_cases htp : t = p
    · subst htp
      rw [ht] at hp
      obtain ⟨h1, h2, h3, h4⟩ : e = pe ∧ qn = pqn ∧ t = pp ∧ ch = pch := by
        cases hp
        exact ⟨rfl, rfl, rfl, rfl⟩
      refine ⟨pe, pch.filter (fun x => x != t), ?_⟩
      show (s.map.set t _).get t = _
      rw [Arena.get_set_self s.map t _ (by rw [ht]; rfl)]
      rw [h2, h3]
    · refine ⟨e, ch, ?_⟩
      show (s.map.set p _).get t = _
      rw [Arena.get_set]
      simp only [if_neg htp]
      exact ht

/-- Witness for C10 on the concrete fixture. -/
theorem remove_from_parent_frame_witness :
    ∃ s2, sTree.remove_from_parent 2 = .ok s2 ∧
      (∀ h, h ≠ 1 → s2.map.get h = sTree.map.get h) ∧
      (∃ e2 ch2, s2.map.get 2 = some (Node.element e2 qnDiv 1 ch2)) ∧
      s2.map.next = sTree.map.next ∧ s2.document = sTree.document ∧
      s2.log = sTree.log :=
  remove_from_parent_frame sTree 2 eDiv qnDiv 1 [] eDiv qnDiv 0 [2] rfl rfl

/-- Claim C9: across any sequence of sink operations no arena entry is
removed or relocated (resolvable handles stay resolvable), insertion
returns a handle that resolves to exactly the inserted node, a
well-formed arena never hands out a handle that is already resolvable
(so distinct creation calls yield unequal handles), and same_node is
exactly handle equality. -/
theorem arena_handle_stability :
    (∀ (ops : List SinkOp) (s : Dom) (h : Nat),
      (s.map.get h).isSome → ((run ops s).map.get h).isSome) ∧
    (∀ (op : SinkOp) (s : Dom), s.map.wf → (runOp op s).map.wf) ∧
    (∀ s : Dom, s.map.wf → s.map.get s.map.next = none) ∧
    (∀ (a : Arena) (nd : Node), ((a.insert nd).2).get ((a.insert nd).1) = some nd) ∧
    (∀ (s : Dom) (a b : Nat), s.same_node a b = true ↔ a = b) := by
  refine ⟨?_, ?_, ?_, ?_, ?_⟩
  · intro ops s h hs
    exact (grows_run ops s).1 h hs
  · intro op s hw
    exact (grows_runOp op s).2 hw
  · intro s hw
    exact Arena.get_next_of_wf s.map hw
  · intro a nd
    simp [Arena.insert, Arena.get, lookupEntry]
  · intro s a b
    simp [Dom.same_node]

/-- Witness for C9, instantiating each quantified conjunct that carries a
hypothesis at a concrete input. -/
theorem arena_handle_stability_witness :
    (((run [SinkOp.remove_from_parent 2] sTree).map.get 2).isSome) ∧
    ((runOp SinkOp.get_document Dom.init).map.wf) ∧
    sTree.map.get sTree.map.next = none :=
  ⟨arena_handle_stability.1 [SinkOp.remove_from_parent 2] sTree 2 (by decide),
   arena_handle_stability.2.1 SinkOp.get_document Dom.init (by decide),
   arena_handle_stability.2.2.1 sTree (by decide)⟩

/-- Claim C3 counterexample: at a concrete input append_before_sibling
does NOT produce a fatal outcome: it returns successfully, with the
arena, document handle, and hence the tree, unchanged (only a warning
diagnostic is added). -/
theorem append_before_sibling_not_fatal :
    Dom.init.append_before_sibling 0 (NodeOrText.appendText "x") =
      .ok ⟨Dom.init.map, Dom.init.document,
        [(Severity.warning, "not implemented - append before sibling")]⟩ ∧
    Dom.init.append_before_sibling 0 (NodeOrText.appendText "x") ≠
      .error DomError.unimplemented ∧
    Dom.init.append_before_sibling 0 (NodeOrText.appendText "x") ≠
      .error DomError.notAnElement ∧
    Dom.init.append_before_sibling 0 (NodeOrText.appendText "x") ≠
      .error DomError.invalidHandle :=
  ⟨rfl, fun h => Except.noConfusion h, fun h => Except.noConfusion h,
    fun h => Except.noConfusion h⟩

/-- Claim C3 amended: for every sibling handle and node-or-text
argument, append_before_sibling surfaces the unimplemented path as an
explicit warning diagnostic and falls back to a successful no-op on the
tree (arena and document handle unchanged); it is not fatal. -/
theorem append_before_sibling_warning_no_op (s : Dom) (sibling : Nat)
    (new_node : NodeOrText) :
    s.append_before_sibling sibling new_node =
      .ok ⟨s.map, s.document,
        (Severity.warning, "not implemented - append before sibling") :: s.log⟩ := rfl

/-- The document plus two elements (handles 1 and 2), both childless,
built through the sink itself. -/
def sTwo : Dom := ((Dom.init.create_element qnDiv []).2.create_element qnDiv []).2

/-- Claim C1 evaluation at the failing input: on the attach case
append(1, AppendNode 2) the source pushes the TARGET handle 1 onto the
CHILD node 2's child list; the target handle 1 gains no child at all. -/
theorem append_attach_pushes_target_into_child :
    ∃ s2, sTwo.append 1 (NodeOrText.appendNode 2) = .ok s2 ∧
      s2.map.get 2 = some (Node.element eDiv qnDiv 0 [1]) ∧
      s2.map.get 1 = some (Node.element eDiv qnDiv 0 []) := by
  refine ⟨_, rfl, ?_, ?_⟩ <;> decide

/-- The document, an element (handle 1) and a Text node (handle 2). -/
def sText : Dom :=
  ⟨⟨3, [(2, Node.text "hi"), (1, Node.element eDiv qnDiv 0 []),
    (0, Node.document none)]⟩, some 0, []⟩

/-- Claim C4 evaluation at the failing input: appending the element
handle 1 to the Text-node target 2 does not fail with a not-an-element
condition; it succeeds and mutates the tree, pushing the Text target
onto the element's child list. -/
theorem append_text_target_succeeds :
    ∃ s2, sText.append 2 (NodeOrText.appendNode 1) = .ok s2 ∧
      s2.map.get 1 = some (Node.element eDiv qnDiv 0 [2]) ∧
      s2.map.get 2 = some (Node.text "hi") := by
  refine ⟨_, rfl, ?_, ?_⟩ <;> decide

/-- The document plus one element (handle 1) created with attribute list
class a, class b, so its recorded class is b. -/
def sCls : Dom :=
  (Dom.init.create_element qnDiv [⟨⟨"", "class"⟩, "a"⟩, ⟨⟨"", "class"⟩, "b"⟩]).2

/-- Claim C2 evaluation at the failing input: the element's recorded
class is b, yet add_attrs_if_missing with class c overwrites it to c
instead of leaving it at b. -/
theorem add_attrs_if_missing_overwrites :
    (∃ e p ch, sCls.map.get 1 = some (Node.element e qnDiv p ch) ∧
      e.get_attr "class" = some "b") ∧
    (∃ s2, sCls.add_attrs_if_missing 1 [⟨⟨"", "class"⟩, "c"⟩] = .ok s2 ∧
      ∃ e p ch, s2.map.get 1 = some (Node.element e qnDiv p ch) ∧
        e.get_attr "class" = some "c" ∧ e.get_attr "class" ≠ some "b") := by
  refine ⟨⟨⟨"div", [("class", "b")]⟩, 0, [], by decide, by decide⟩, ?_⟩
  refine ⟨_, rfl, ⟨"div", [("class", "c")]⟩, 0, [], by decide, by decide, by decide⟩
